import Mathlib

/-!
Shallow embedding of the montu-map-search TypeScript client (src/maps-api.ts)
and the spec-level properties about it.

The embedding mirrors the source:
  * getParams          — parameter builder (apiKey / limit resolution)
  * toAutoCompleteResult — result mapper
  * getAutoCompleteResults — request executor (outcome classification)
  * FuzzySearch        — the stateful rate-limit queue, modelled as an explicit
    state machine driven by events (submit / timer firing / dispose).

The HTTP transport and the valibot validator are external collaborators; each
underlying call's combined outcome (HTTP result plus validation result) is
drawn from an oracle `Nat → String → ApiOutcome` indexed by the number of
calls issued so far and the queried address.  JavaScript runs the client on a
single-threaded event loop, so each event (a submission together with the
settlement of its immediate HTTP call, a timer callback, a dispose call) is
modelled as one atomic step.
-/

/-- `const COUNTRY_CODE = 'AU'` — fixed country restriction. -/
def COUNTRY_CODE : String := "AU"

/-- `const MAX_LIMIT = 100` — maximum limit supported by the API. -/
def MAX_LIMIT : Int := 100

/-- `const DELAY_TIME = 5000` — default delay in milliseconds. -/
def DELAY_TIME : Nat := 5000

/-- Errors thrown by the library.  `tooManyRequests` is the
`TooManyRequestsError` class; `validation` is a rethrown `ValiError`
(identified by a tag so that rethrowing verbatim is checkable); `transport`
is the original axios error rethrown unmodified (carrying its
`response?.status` and a tag identifying the original fault object);
`disposed` is the `Error('Clearing queue')` raised by `dispose()`;
`missingKey` is the `Error('Missing API key or TOMTOM_API_KEY environment
variable')` thrown by `getParams`. -/
inductive FuzzyError where
  | validation (fault : Nat)
  | tooManyRequests
  | transport (status : Option Int) (fault : Nat)
  | disposed
  | missingKey
deriving DecidableEq, Repr

/-- `FuzzySearchOptions` — constructor options. `none` models a missing
(undefined) field.  `limit` is a JS number, modelled as an integer (the
clamping logic is arithmetic on the value). -/
structure FuzzySearchOptions where
  apiKey : Option String := none
  delay : Option Nat := none
  limit : Option Int := none
deriving DecidableEq, Repr

/-- `AutoCompleteParams` — query parameters sent to the TomTom API. -/
structure AutoCompleteParams where
  key : String
  countrySet : String
  limit : Int
deriving DecidableEq, Repr

/-- The value of `options.apiKey ?? process.env.TOMTOM_API_KEY`: `??` falls
through only when the explicit option is null/undefined, so the explicit
option is kept even when it is the empty string. -/
def resolvedKey (options : FuzzySearchOptions) (envApiKey : Option String) :
    Option String :=
  match options.apiKey with
  | some k => some k
  | none => envApiKey

/-- `getParams(options)`: resolves the API key from the explicit option with
`??` fallback to `process.env.TOMTOM_API_KEY` (modelled by `envApiKey`;
`none` is an unset variable, `some ""` a set-but-empty one); `if (!key)`
rejects both an undefined key and the empty string (JS falsiness).  The
limit defaults to `MAX_LIMIT` when null/undefined, else is clamped by
`Math.min(Math.max(1, options.limit), MAX_LIMIT)`. -/
def getParams (options : FuzzySearchOptions) (envApiKey : Option String) :
    Except FuzzyError AutoCompleteParams :=
  match resolvedKey options envApiKey with
  | none => .error .missingKey
  | some k =>
    if k = "" then .error .missingKey
    else .ok
      { key := k
        countrySet := COUNTRY_CODE
        limit := match options.limit with
          | none => MAX_LIMIT
          | some l => min (max 1 l) MAX_LIMIT }

/-- The `address` object of a raw search result (src/schema.ts,
`addressSchema`); only the fields consumed by the result mapper are listed,
optional ones as `Option`. -/
structure Address where
  streetNumber : Option String := none
  streetName : String := ""
  municipality : Option String := none
  countryCode : String := ""
  country : String := ""
  freeformAddress : String := ""
deriving DecidableEq, Repr

/-- A validated raw search result (src/schema.ts, `resultSchema`); the mapper
consumes only `id` and `address`. -/
structure SearchResult where
  id : String
  address : Address
deriving DecidableEq, Repr

/-- A validated response body (src/schema.ts, `responseSchema`); the client
consumes only the `results` array. -/
structure SearchResponse where
  results : List SearchResult
deriving DecidableEq, Repr

/-- `AutoCompleteResult` — the library's stable output shape.  Absent
optional fields stay `none` (JS `undefined`), never an empty string. -/
structure AutoCompleteResult where
  placeId : String
  streetNumber : Option String
  countryCode : String
  country : String
  freeformAddress : String
  municipality : Option String
deriving DecidableEq, Repr

/-- `toAutoCompleteResult(result)` — the result mapper. -/
def toAutoCompleteResult (result : SearchResult) : AutoCompleteResult :=
  { placeId := result.id
    streetNumber := result.address.streetNumber
    countryCode := result.address.countryCode
    country := result.address.country
    freeformAddress := result.address.freeformAddress
    municipality := result.address.municipality }

/-- The combined outcome of one underlying call, as the environment provides
it: `ok` is an HTTP success whose body passes `parseResponse`; `invalid` is
an HTTP success whose body fails validation with a `ValiError` (tagged);
`httpError` is a rejected axios request carrying `error.response?.status`
and a tag identifying the original error object. -/
inductive ApiOutcome where
  | ok (response : SearchResponse)
  | invalid (fault : Nat)
  | httpError (status : Option Int) (fault : Nat)
deriving DecidableEq, Repr

/-- `getAutoCompleteResults(params, address, options)` — the request
executor.  On success it maps every validated record through the result
mapper; a `ValiError` is rethrown verbatim; an HTTP failure with
`response?.status === 429` becomes `TooManyRequestsError`; any other
failure is rethrown unmodified. -/
def getAutoCompleteResults (outcome : ApiOutcome) :
    Except FuzzyError (List AutoCompleteResult) :=
  match outcome with
  | .ok response => .ok (response.results.map toAutoCompleteResult)
  | .invalid fault => .error (.validation fault)
  | .httpError status fault =>
    if status = some 429 then .error .tooManyRequests
    else .error (.transport status fault)

/-- A `QueuedRequest`: the deferred request's address and the index of its
promise in the client's future table (its `options` carry no behaviour in
the model). -/
structure QueuedRequest where
  address : String
  futureId : Nat
deriving DecidableEq, Repr

/-- The state of one caller-visible promise. -/
inductive FutureState where
  | pending
  | resolved (results : List AutoCompleteResult)
  | rejected (error : FuzzyError)
deriving DecidableEq, Repr

/-- The mutable state of a `FuzzySearch` instance.  `queue` is the `#queue`
field; `timeoutSet` records whether the `#timeout` field holds a handle;
`timerArmed` records whether that handle refers to a timeout that is
scheduled, not yet fired and not cancelled; `futures` is the table of all
promises handed to callers, indexed by creation order; `calls` counts
underlying API calls issued so far (it indexes the oracle). -/
structure ClientState where
  queue : Option (List QueuedRequest)
  timeoutSet : Bool
  timerArmed : Bool
  futures : List FutureState
  calls : Nat
deriving DecidableEq, Repr

/-- A fresh client: `#queue` and `#timeout` begin unset. -/
def initState : ClientState :=
  { queue := none, timeoutSet := false, timerArmed := false
    futures := [], calls := 0 }

/-- Settle a promise: resolving or rejecting a promise that is already
settled is a no-op (single-resolution). -/
def settleFuture (futures : List FutureState) (id : Nat)
    (value : FutureState) : List FutureState :=
  match futures[id]? with
  | some .pending => futures.set id value
  | _ => futures

namespace FuzzySearch

/-- `_handleDelay(request)`: if `#queue` is unset, create it holding just
this request and arm the drain timeout; otherwise push onto the existing
queue (the timer is untouched). -/
def handleDelay (s : ClientState) (request : QueuedRequest) : ClientState :=
  match s.queue with
  | none =>
    { s with queue := some [request], timeoutSet := true, timerArmed := true }
  | some q => { s with queue := some (q ++ [request]) }

/-- `_runAutoComplete(address, options)`: issue one underlying call; on
`TooManyRequestsError` create a queued request (a fresh pending promise) and
hand it to `_handleDelay`; any other outcome settles the caller's promise
immediately. -/
def runAutoComplete (oracle : Nat → String → ApiOutcome) (address : String)
    (s : ClientState) : ClientState :=
  let outcome := oracle s.calls address
  let s1 : ClientState := { s with calls := s.calls + 1 }
  match getAutoCompleteResults outcome with
  | .ok results => { s1 with futures := s1.futures ++ [.resolved results] }
  | .error .tooManyRequests =>
    let fid := s1.futures.length
    handleDelay { s1 with futures := s1.futures ++ [.pending] }
      { address := address, futureId := fid }
  | .error e => { s1 with futures := s1.futures ++ [.rejected e] }

/-- `autoComplete(address, options)`: when `#queue` is unset run the request
immediately, otherwise append a queued request to the existing queue and
return its promise without issuing a call. -/
def autoComplete (oracle : Nat → String → ApiOutcome) (address : String)
    (s : ClientState) : ClientState :=
  match s.queue with
  | none => runAutoComplete oracle address s
  | some q =>
    let fid := s.futures.length
    { s with futures := s.futures ++ [.pending]
             queue := some (q ++ [{ address := address, futureId := fid }]) }

/-- One drained request inside the timeout callback: re-issue the call and
resolve or reject its promise with its own outcome; no further delay is
applied on error. -/
def drainRequest (oracle : Nat → String → ApiOutcome) (s : ClientState)
    (req : QueuedRequest) : ClientState :=
  let outcome := oracle s.calls req.address
  let s1 : ClientState := { s with calls := s.calls + 1 }
  match getAutoCompleteResults outcome with
  | .ok results =>
    { s1 with futures := settleFuture s1.futures req.futureId (.resolved results) }
  | .error e =>
    { s1 with futures := settleFuture s1.futures req.futureId (.rejected e) }

/-- The timeout callback installed by `_handleDelay`: it runs only if the
timeout is still scheduled (firing consumes the arming; the `#timeout`
field keeps the fired handle).  It sanity-checks that the queue exists,
dispatches every queued request in order, then resets `#queue` to
undefined. -/
def fireTimer (oracle : Nat → String → ApiOutcome) (s : ClientState) :
    ClientState :=
  if s.timerArmed then
    let s1 : ClientState := { s with timerArmed := false }
    match s1.queue with
    | some q => { (q.foldl (drainRequest oracle) s1) with queue := none }
    | none => s1
  else s

/-- `dispose()`: reject every queued request's promise with
`Error('Clearing queue')` and `clearTimeout(this.#timeout)`.  The `#queue`
and `#timeout` fields themselves are left as they are. -/
def dispose (s : ClientState) : ClientState :=
  let futures := match s.queue with
    | some q =>
      q.foldl (fun fs req => settleFuture fs req.futureId (.rejected .disposed))
        s.futures
    | none => s.futures
  { s with futures := futures, timerArmed := false }

/-- The observable events driving a client instance. -/
inductive Event where
  | submit (address : String)
  | fire
  | dispose
deriving DecidableEq, Repr

/-- One event step. -/
def step (oracle : Nat → String → ApiOutcome) (s : ClientState) :
    Event → ClientState
  | .submit a => autoComplete oracle a s
  | .fire => fireTimer oracle s
  | .dispose => dispose s

/-- Run a list of events from a given state. -/
def runFrom (oracle : Nat → String → ApiOutcome) (s : ClientState)
    (events : List Event) : ClientState :=
  events.foldl (step oracle) s

/-- Run a list of events on a fresh client. -/
def run (oracle : Nat → String → ApiOutcome) (events : List Event) :
    ClientState :=
  runFrom oracle initState events

end FuzzySearch

/-- An environment in which every call is rejected with HTTP status 429. -/
def oracle429 : Nat → String → ApiOutcome :=
  fun _ _ => .httpError (some 429) 0

/-- An outcome is classified rate-limited exactly when the executor turns it
into `TooManyRequestsError`. -/
def isRateLimited (o : ApiOutcome) : Prop :=
  getAutoCompleteResults o = .error .tooManyRequests

/-- A raw record with every optional address field absent. -/
def sampleResult : SearchResult :=
  { id := "id1"
    address := { streetName := "Test street", countryCode := "AU"
                 country := "Australia", freeformAddress := "Test street" } }

/-- A validated response holding one record. -/
def sampleResponse : SearchResponse := { results := [sampleResult] }

/-- An environment that is rate-limited on the first call and successful
afterwards. -/
def oracleOnce : Nat → String → ApiOutcome :=
  fun n _ => if n = 0 then .httpError (some 429) 0 else .ok sampleResponse

/-- The half of the claimed field invariant that does hold: whenever the
queue field is set, the timeout field is set. -/
def QueueTimeoutInv (s : ClientState) : Prop :=
  s.queue.isSome = true → s.timeoutSet = true

/-- A client that was disposed while Draining: the queue field is still set
and no timeout is armed. -/
def Stuck (s : ClientState) : Prop :=
  s.queue.isSome = true ∧ s.timerArmed = false

/-- C9: every `AutoCompleteParams` value built by `getParams` satisfies the
data-model invariant: the limit is an integer in `[1, 100]` and the country
filter is the fixed constant; the key is non-empty. -/
theorem getParams_invariant_holds (options : FuzzySearchOptions)
    (envApiKey : Option String) (p : AutoCompleteParams)
    (h : getParams options envApiKey = .ok p) :
    1 ≤ p.limit ∧ p.limit ≤ 100 ∧ p.countrySet = COUNTRY_CODE ∧ p.key ≠ "" := by
  unfold getParams at h
  split at h
  · exact absurd h (by simp)
  · next k hk =>
    split at h
    · exact absurd h (by simp)
    · next he =>
      injection h with h
      subst h
      refine ⟨?_, ?_, rfl, he⟩
      · rcases options.limit with _ | l
        · simp [MAX_LIMIT]
        · simp only [MAX_LIMIT]
          omega
      · rcases options.limit with _ | l
        · simp [MAX_LIMIT]
        · simp only [MAX_LIMIT]
          omega

/-- Witness for C9 at a concrete input. -/
theorem getParams_invariant_holds_witness :
    (getParams { apiKey := some "k", limit := some 200 } none =
      .ok { key := "k", countrySet := "AU", limit := 100 }) ∧
    1 ≤ (100 : Int) ∧ (100 : Int) ≤ 100 ∧ ("AU" : String) = COUNTRY_CODE ∧
    ("k" : String) ≠ "" := by
  have h := getParams_invariant_holds { apiKey := some "k", limit := some 200 }
    none { key := "k", countrySet := "AU", limit := 100 } rfl
  exact ⟨rfl, h.1, h.2.1, h.2.2.1, h.2.2.2⟩

/-- When the resolved key is a non-empty string, `getParams` succeeds with
that key, the fixed country filter, and the resolved limit. -/
theorem getParams_eq_ok (options : FuzzySearchOptions)
    (envApiKey : Option String) (k : String)
    (hk : resolvedKey options envApiKey = some k) (he : k ≠ "") :
    getParams options envApiKey = .ok
      { key := k
        countrySet := COUNTRY_CODE
        limit := match options.limit with
          | none => MAX_LIMIT
          | some l => min (max 1 l) MAX_LIMIT } := by
  unfold getParams
  rw [hk]
  simp [he]

/-- C8: the limit defaults to the maximum (100) when unset, is silently
clamped to the nearest bound when out of `[1, 100]`, and passes through
unchanged when in range; an out-of-range limit never causes an error. -/
theorem getParams_limit_clamp (options : FuzzySearchOptions)
    (envApiKey : Option String) (p : AutoCompleteParams)
    (h : getParams options envApiKey = .ok p) :
    MAX_LIMIT = 100 ∧
    (options.limit = none → p.limit = MAX_LIMIT) ∧
    (∀ l, options.limit = some l → l < 1 → p.limit = 1) ∧
    (∀ l, options.limit = some l → MAX_LIMIT < l → p.limit = MAX_LIMIT) ∧
    (∀ l, options.limit = some l → 1 ≤ l → l ≤ MAX_LIMIT → p.limit = l) ∧
    (∀ l, ∃ q, getParams { options with limit := some l } envApiKey = .ok q) := by
  have hp : ∃ k, resolvedKey options envApiKey = some k ∧ k ≠ "" ∧
      p.limit = (match options.limit with
        | none => MAX_LIMIT
        | some l => min (max 1 l) MAX_LIMIT) := by
    unfold getParams at h
    split at h
    · exact absurd h (by simp)
    · next k hk =>
      split at h
      · exact absurd h (by simp)
      · next he =>
        injection h with h
        subst h
        exact ⟨k, hk, he, rfl⟩
  obtain ⟨k, hk, he, hlim⟩ := hp
  refine ⟨rfl, ?_, ?_, ?_, ?_, ?_⟩
  · intro h0
    simp only [h0] at hlim
    exact hlim
  · intro l hl hlt
    simp only [hl] at hlim
    rw [hlim]
    simp only [MAX_LIMIT] at *
    omega
  · intro l hl hlt
    simp only [hl] at hlim
    rw [hlim]
    simp only [MAX_LIMIT] at *
    omega
  · intro l hl h1 h2
    simp only [hl] at hlim
    rw [hlim]
    simp only [MAX_LIMIT] at *
    omega
  · intro l
    refine ⟨_, getParams_eq_ok { options with limit := some l } envApiKey k ?_ he⟩
    simpa [resolvedKey] using hk

/-- Witness for C8 at a concrete input: a limit of 200 is clamped to the
maximum. -/
theorem getParams_limit_clamp_witness :
    ({ key := "k", countrySet := "AU", limit := 100 } : AutoCompleteParams).limit
      = MAX_LIMIT :=
  (getParams_limit_clamp { apiKey := some "k", limit := some 200 } none
    { key := "k", countrySet := "AU", limit := 100 } rfl).2.2.2.1 200
    rfl (by decide)

/-- C6 fails on the code: an explicit empty-string key is kept by `??` (it
is not nullish), so `getParams` throws even though the environment variable
holds a non-empty key that the claim says would be used. -/
theorem getParams_emptyKey_counterexample :
    getParams { apiKey := some "" } (some "envkey") = .error .missingKey ∧
    ("envkey" : String) ≠ "" := ⟨rfl, by decide⟩

/-- C6 (amended): the explicit option takes precedence whenever it is
provided, even when empty; `getParams` fails with the missing-key error
exactly when the resolved key (explicit option if provided, else the
environment variable) is absent or empty, and succeeds with that key
otherwise. -/
theorem getParams_key_precedence (options : FuzzySearchOptions)
    (envApiKey : Option String) :
    (getParams options envApiKey = .error .missingKey ↔
      resolvedKey options envApiKey = none ∨
      resolvedKey options envApiKey = some "") ∧
    (∀ k, resolvedKey options envApiKey = some k → k ≠ "" →
      ∃ p, getParams options envApiKey = .ok p ∧ p.key = k) ∧
    (∀ k, options.apiKey = some k → resolvedKey options envApiKey = some k) ∧
    (options.apiKey = none → resolvedKey options envApiKey = envApiKey) := by
  refine ⟨⟨?_, ?_⟩, ?_, ?_, ?_⟩
  · intro h
    unfold getParams at h
    split at h
    · next hk => exact .inl hk
    · next k hk =>
      split at h
      · next hke => exact .inr (by rw [hk, hke])
      · exact absurd h (by simp)
  · intro h
    rcases h with h | h
    · simp [getParams, h]
    · simp [getParams, h]
  · intro k hk hne
    exact ⟨_, getParams_eq_ok options envApiKey k hk hne, rfl⟩
  · intro k hk
    simp [resolvedKey, hk]
  · intro hk
    simp [resolvedKey, hk]

/-- Witness for C6 (amended) at concrete inputs: the environment key is used
when no explicit option is provided, and both sources missing is an error. -/
theorem getParams_key_precedence_witness :
    (∃ p, getParams { apiKey := none } (some "e") = .ok p ∧ p.key = "e") ∧
    (getParams {} none = .error .missingKey ↔
      (resolvedKey {} none = none ∨ resolvedKey {} none = some "")) :=
  ⟨(getParams_key_precedence { apiKey := none } (some "e")).2.1 "e" rfl
      (by decide),
   (getParams_key_precedence {} none).1⟩

/-- C5: the request executor propagates a validation failure verbatim, turns
an HTTP 429 into the distinct rate-limit error, and propagates any other
transport failure unmodified; for the latter two non-recoverable kinds a
submission issues exactly one underlying call, settles immediately, and
creates no queue and no timer. -/
theorem executor_error_propagation (fault : Nat) (status : Option Int)
    (oracle : Nat → String → ApiOutcome) (address : String) :
    getAutoCompleteResults (.invalid fault) = .error (.validation fault) ∧
    (∀ f, getAutoCompleteResults (.httpError (some 429) f) =
      .error .tooManyRequests) ∧
    (status ≠ some 429 → ∀ f,
      getAutoCompleteResults (.httpError status f) =
        .error (.transport status f)) ∧
    (oracle 0 address = .invalid fault →
      FuzzySearch.run oracle [.submit address] =
        { queue := none, timeoutSet := false, timerArmed := false
          futures := [.rejected (.validation fault)], calls := 1 }) ∧
    (∀ f, status ≠ some 429 → oracle 0 address = .httpError status f →
      FuzzySearch.run oracle [.submit address] =
        { queue := none, timeoutSet := false, timerArmed := false
          futures := [.rejected (.transport status f)], calls := 1 }) := by
  refine ⟨rfl, fun f => rfl, ?_, ?_, ?_⟩
  · intro hne f
    simp [getAutoCompleteResults, hne]
  · intro h
    simp [FuzzySearch.run, FuzzySearch.runFrom, FuzzySearch.step,
      FuzzySearch.autoComplete, FuzzySearch.runAutoComplete, initState, h,
      getAutoCompleteResults]
  · intro f hne h
    simp [FuzzySearch.run, FuzzySearch.runFrom, FuzzySearch.step,
      FuzzySearch.autoComplete, FuzzySearch.runAutoComplete, initState, h,
      getAutoCompleteResults, hne]

/-- Witness for C5 at concrete inputs: a tagged validation fault is rethrown
verbatim, and a 500-status transport failure is propagated unmodified after
a single call. -/
theorem executor_error_propagation_witness :
    getAutoCompleteResults (.invalid 7) = .error (.validation 7) ∧
    FuzzySearch.run (fun _ _ => .httpError (some 500) 3) [.submit "a"] =
      { queue := none, timeoutSet := false, timerArmed := false
        futures := [.rejected (.transport (some 500) 3)], calls := 1 } :=
  ⟨(executor_error_propagation 7 (some 500)
      (fun _ _ => .httpError (some 500) 3) "a").1,
   (executor_error_propagation 7 (some 500)
      (fun _ _ => .httpError (some 500) 3) "a").2.2.2.2 3 (by decide) rfl⟩

/-- C7: a successful lookup returns exactly the upstream records mapped
through the result mapper in upstream order, and each optional field that is
absent in the raw record is absent (`none`) in the output, never an empty
string. -/
theorem mapper_preserves_order_and_absence (response : SearchResponse)
    (r : SearchResult) :
    getAutoCompleteResults (.ok response) =
      .ok (response.results.map toAutoCompleteResult) ∧
    (∀ i : Nat, (response.results.map toAutoCompleteResult)[i]? =
      response.results[i]?.map toAutoCompleteResult) ∧
    (toAutoCompleteResult r).placeId = r.id ∧
    (toAutoCompleteResult r).streetNumber = r.address.streetNumber ∧
    (toAutoCompleteResult r).municipality = r.address.municipality ∧
    (toAutoCompleteResult r).countryCode = r.address.countryCode ∧
    (toAutoCompleteResult r).country = r.address.country ∧
    (toAutoCompleteResult r).freeformAddress = r.address.freeformAddress ∧
    (r.address.streetNumber = none →
      (toAutoCompleteResult r).streetNumber = none) ∧
    (r.address.municipality = none →
      (toAutoCompleteResult r).municipality = none) := by
  refine ⟨rfl, fun i => List.getElem?_map _ _ _, rfl, rfl, rfl, rfl, rfl,
    rfl, ?_, ?_⟩
  · intro h
    simp [toAutoCompleteResult, h]
  · intro h
    simp [toAutoCompleteResult, h]

/-- Witness for C7 at a concrete response whose record has absent optional
fields. -/
theorem mapper_preserves_order_and_absence_witness :
    getAutoCompleteResults (.ok sampleResponse) =
      .ok (sampleResponse.results.map toAutoCompleteResult) ∧
    sampleResult.address.streetNumber = none ∧
    (toAutoCompleteResult sampleResult).streetNumber = none ∧
    (toAutoCompleteResult sampleResult).municipality = none :=
  ⟨(mapper_preserves_order_and_absence sampleResponse sampleResult).1, rfl,
   (mapper_preserves_order_and_absence sampleResponse
      sampleResult).2.2.2.2.2.2.2.2.1 rfl,
   (mapper_preserves_order_and_absence sampleResponse
      sampleResult).2.2.2.2.2.2.2.2.2 rfl⟩

/-- C1: a submission whose first underlying call is rate-limited gets exactly
one automatic retry.  If the retry succeeds the caller's promise resolves
with the success value after exactly 2 underlying calls; if the retry is
rate-limited again the promise rejects with the rate-limit error after
exactly 2 underlying calls; in both cases the drain leaves no armed timer
and no queue, and firing again changes nothing — no second retry wave ever
starts. -/
theorem rateLimit_single_retry (oracle : Nat → String → ApiOutcome)
    (address : String) (h0 : isRateLimited (oracle 0 address)) :
    (∀ response, oracle 1 address = .ok response →
      FuzzySearch.run oracle [.submit address, .fire] =
        { queue := none, timeoutSet := true, timerArmed := false
          futures := [.resolved (response.results.map toAutoCompleteResult)]
          calls := 2 } ∧
      FuzzySearch.fireTimer oracle
          (FuzzySearch.run oracle [.submit address, .fire]) =
        FuzzySearch.run oracle [.submit address, .fire]) ∧
    (isRateLimited (oracle 1 address) →
      FuzzySearch.run oracle [.submit address, .fire] =
        { queue := none, timeoutSet := true, timerArmed := false
          futures := [.rejected .tooManyRequests], calls := 2 } ∧
      FuzzySearch.fireTimer oracle
          (FuzzySearch.run oracle [.submit address, .fire]) =
        FuzzySearch.run oracle [.submit address, .fire]) := by
  unfold isRateLimited at h0
  constructor
  · intro response h1
    have hrun : FuzzySearch.run oracle [.submit address, .fire] =
        { queue := none, timeoutSet := true, timerArmed := false
          futures := [.resolved (response.results.map toAutoCompleteResult)]
          calls := 2 } := by
      simp [FuzzySearch.run, FuzzySearch.runFrom, FuzzySearch.step,
        FuzzySearch.autoComplete, FuzzySearch.runAutoComplete,
        FuzzySearch.handleDelay, FuzzySearch.fireTimer,
        FuzzySearch.drainRequest, settleFuture, initState, h0, h1]
      simp [getAutoCompleteResults, settleFuture]
    exact ⟨hrun, by rw [hrun]; rfl⟩
  · intro h1
    unfold isRateLimited at h1
    have hrun : FuzzySearch.run oracle [.submit address, .fire] =
        { queue := none, timeoutSet := true, timerArmed := false
          futures := [.rejected .tooManyRequests], calls := 2 } := by
      simp [FuzzySearch.run, FuzzySearch.runFrom, FuzzySearch.step,
        FuzzySearch.autoComplete, FuzzySearch.runAutoComplete,
        FuzzySearch.handleDelay, FuzzySearch.fireTimer,
        FuzzySearch.drainRequest, settleFuture, initState, h0, h1]
    exact ⟨hrun, by rw [hrun]; rfl⟩

/-- Witness for C1: under `oracleOnce` the single submission resolves with
the success value after exactly 2 calls, and under `oracle429` it rejects
with the rate-limit error after exactly 2 calls. -/
theorem rateLimit_single_retry_witness :
    (FuzzySearch.run oracleOnce [.submit "a", .fire] =
      { queue := none, timeoutSet := true, timerArmed := false
        futures := [.resolved (sampleResponse.results.map toAutoCompleteResult)]
        calls := 2 }) ∧
    (FuzzySearch.run oracle429 [.submit "a", .fire] =
      { queue := none, timeoutSet := true, timerArmed := false
        futures := [.rejected .tooManyRequests], calls := 2 }) :=
  ⟨((rateLimit_single_retry oracleOnce "a" rfl).1 sampleResponse rfl).1,
   ((rateLimit_single_retry oracle429 "a" rfl).2 rfl).1⟩

/-- C4: while Draining, every new submission is appended to the single
existing queue in submission order with a fresh pending promise and no
immediate underlying call, and the timer fields are untouched; in the
four-submission scenario the drain issues the 4 queued calls (5 underlying
calls in total, counting the failed initial one), resolves each promise
with its own independent result, and unsets the queue. -/
theorem draining_appends_in_order (oracle : Nat → String → ApiOutcome)
    (a b c d : String) (h0 : isRateLimited (oracle 0 a)) :
    (FuzzySearch.run oracle [.submit a] =
      { queue := some [{ address := a, futureId := 0 }]
        timeoutSet := true, timerArmed := true
        futures := [.pending], calls := 1 }) ∧
    (FuzzySearch.run oracle [.submit a, .submit b, .submit c, .submit d] =
      { queue := some [{ address := a, futureId := 0 },
                       { address := b, futureId := 1 },
                       { address := c, futureId := 2 },
                       { address := d, futureId := 3 }]
        timeoutSet := true, timerArmed := true
        futures := [.pending, .pending, .pending, .pending], calls := 1 }) ∧
    (∀ r1 r2 r3 r4, oracle 1 a = .ok r1 → oracle 2 b = .ok r2 →
      oracle 3 c = .ok r3 → oracle 4 d = .ok r4 →
      FuzzySearch.run oracle
          [.submit a, .submit b, .submit c, .submit d, .fire] =
        { queue := none, timeoutSet := true, timerArmed := false
          futures := [.resolved (r1.results.map toAutoCompleteResult),
                      .resolved (r2.results.map toAutoCompleteResult),
                      .resolved (r3.results.map toAutoCompleteResult),
                      .resolved (r4.results.map toAutoCompleteResult)]
          calls := 5 }) := by
  unfold isRateLimited at h0
  refine ⟨?_, ?_, ?_⟩
  · simp [FuzzySearch.run, FuzzySearch.runFrom, FuzzySearch.step,
      FuzzySearch.autoComplete, FuzzySearch.runAutoComplete,
      FuzzySearch.handleDelay, initState, h0]
  · simp [FuzzySearch.run, FuzzySearch.runFrom, FuzzySearch.step,
      FuzzySearch.autoComplete, FuzzySearch.runAutoComplete,
      FuzzySearch.handleDelay, initState, h0]
  · intro r1 r2 r3 r4 h1 h2 h3 h4
    simp [FuzzySearch.run, FuzzySearch.runFrom, FuzzySearch.step,
      FuzzySearch.autoComplete, FuzzySearch.runAutoComplete,
      FuzzySearch.handleDelay, FuzzySearch.fireTimer,
      FuzzySearch.drainRequest, initState, h0, h1, h2, h3, h4]
    simp [getAutoCompleteResults, settleFuture, h1, h2, h3, h4]

/-- Witness for C4 under `oracleOnce` with four concrete submissions. -/
theorem draining_appends_in_order_witness :
    FuzzySearch.run oracleOnce
        [.submit "a", .submit "b", .submit "c", .submit "d", .fire] =
      { queue := none, timeoutSet := true, timerArmed := false
        futures :=
          [.resolved (sampleResponse.results.map toAutoCompleteResult),
           .resolved (sampleResponse.results.map toAutoCompleteResult),
           .resolved (sampleResponse.results.map toAutoCompleteResult),
           .resolved (sampleResponse.results.map toAutoCompleteResult)]
        calls := 5 } :=
  (draining_appends_in_order oracleOnce "a" "b" "c" "d" rfl).2.2
    sampleResponse sampleResponse sampleResponse sampleResponse
    rfl rfl rfl rfl

/-- Settling a promise does not change the number of promises. -/
theorem settleFuture_length (fs : List FutureState) (id : Nat)
    (v : FutureState) : (settleFuture fs id v).length = fs.length := by
  unfold settleFuture
  split <;> simp

/-- `autoComplete` in Idle runs the request immediately. -/
theorem autoComplete_queue_none (oracle : Nat → String → ApiOutcome)
    (a : String) (s : ClientState) (hq : s.queue = none) :
    FuzzySearch.autoComplete oracle a s =
      FuzzySearch.runAutoComplete oracle a s := by
  unfold FuzzySearch.autoComplete
  rw [hq]

/-- `autoComplete` in Draining appends to the existing queue with a fresh
pending promise and issues no call. -/
theorem autoComplete_queue_some (oracle : Nat → String → ApiOutcome)
    (a : String) (s : ClientState) (q : List QueuedRequest)
    (hq : s.queue = some q) :
    FuzzySearch.autoComplete oracle a s =
      { s with futures := s.futures ++ [.pending]
               queue := some (q ++
                 [{ address := a, futureId := s.futures.length }]) } := by
  unfold FuzzySearch.autoComplete
  rw [hq]

/-- `_handleDelay` with no queue creates it and arms the timeout. -/
theorem handleDelay_queue_none (s : ClientState) (r : QueuedRequest)
    (hq : s.queue = none) :
    FuzzySearch.handleDelay s r =
      { s with queue := some [r], timeoutSet := true, timerArmed := true } := by
  unfold FuzzySearch.handleDelay
  rw [hq]

/-- `_handleDelay` with an existing queue only appends. -/
theorem handleDelay_queue_some (s : ClientState) (r : QueuedRequest)
    (q : List QueuedRequest) (hq : s.queue = some q) :
    FuzzySearch.handleDelay s r = { s with queue := some (q ++ [r]) } := by
  unfold FuzzySearch.handleDelay
  rw [hq]

/-- `_runAutoComplete` on a successful outcome settles immediately. -/
theorem runAutoComplete_ok (oracle : Nat → String → ApiOutcome) (a : String)
    (s : ClientState) (results : List AutoCompleteResult)
    (hg : getAutoCompleteResults (oracle s.calls a) = .ok results) :
    FuzzySearch.runAutoComplete oracle a s =
      { s with calls := s.calls + 1
               futures := s.futures ++ [.resolved results] } := by
  unfold FuzzySearch.runAutoComplete
  simp [hg]

/-- `_runAutoComplete` on a rate-limited outcome defers the request. -/
theorem runAutoComplete_rateLimited (oracle : Nat → String → ApiOutcome)
    (a : String) (s : ClientState)
    (hg : getAutoCompleteResults (oracle s.calls a) =
      .error .tooManyRequests) :
    FuzzySearch.runAutoComplete oracle a s =
      FuzzySearch.handleDelay
        { s with calls := s.calls + 1, futures := s.futures ++ [.pending] }
        { address := a, futureId := s.futures.length } := by
  unfold FuzzySearch.runAutoComplete
  simp [hg]

/-- `_runAutoComplete` rethrows any non-rate-limit error immediately. -/
theorem runAutoComplete_error (oracle : Nat → String → ApiOutcome)
    (a : String) (s : ClientState) (e : FuzzyError)
    (hg : getAutoCompleteResults (oracle s.calls a) = .error e)
    (hne : e ≠ .tooManyRequests) :
    FuzzySearch.runAutoComplete oracle a s =
      { s with calls := s.calls + 1
               futures := s.futures ++ [.rejected e] } := by
  unfold FuzzySearch.runAutoComplete
  cases e with
  | tooManyRequests => exact absurd rfl hne
  | validation fault => simp [hg]
  | transport status fault => simp [hg]
  | disposed => simp [hg]
  | missingKey => simp [hg]

/-- `_runAutoComplete` always does one of three things: settle with results,
defer after a rate limit, or settle with the propagated error. -/
theorem runAutoComplete_cases (oracle : Nat → String → ApiOutcome)
    (a : String) (s : ClientState) :
    (∃ results, FuzzySearch.runAutoComplete oracle a s =
      { s with calls := s.calls + 1
               futures := s.futures ++ [.resolved results] }) ∨
    (FuzzySearch.runAutoComplete oracle a s =
      FuzzySearch.handleDelay
        { s with calls := s.calls + 1, futures := s.futures ++ [.pending] }
        { address := a, futureId := s.futures.length }) ∨
    (∃ e, e ≠ FuzzyError.tooManyRequests ∧
      FuzzySearch.runAutoComplete oracle a s =
        { s with calls := s.calls + 1
                 futures := s.futures ++ [.rejected e] }) := by
  cases hg : getAutoCompleteResults (oracle s.calls a) with
  | ok results => exact .inl ⟨results, runAutoComplete_ok oracle a s results hg⟩
  | error e =>
    by_cases he : e = FuzzyError.tooManyRequests
    · subst he
      exact .inr (.inl (runAutoComplete_rateLimited oracle a s hg))
    · exact .inr (.inr ⟨e, he, runAutoComplete_error oracle a s e hg he⟩)

/-- The timeout callback is a no-op when the timeout was cancelled or has
already fired. -/
theorem fireTimer_not_armed (oracle : Nat → String → ApiOutcome)
    (s : ClientState) (ha : s.timerArmed = false) :
    FuzzySearch.fireTimer oracle s = s := by
  simp [FuzzySearch.fireTimer, ha]

/-- Firing with a queue drains it and resets only the queue field. -/
theorem fireTimer_armed_some (oracle : Nat → String → ApiOutcome)
    (s : ClientState) (q : List QueuedRequest) (ha : s.timerArmed = true)
    (hq : s.queue = some q) :
    FuzzySearch.fireTimer oracle s =
      { q.foldl (FuzzySearch.drainRequest oracle) { s with timerArmed := false }
          with queue := none } := by
  simp [FuzzySearch.fireTimer, ha, hq]

/-- Firing with no queue (defensive branch) only consumes the arming. -/
theorem fireTimer_armed_none (oracle : Nat → String → ApiOutcome)
    (s : ClientState) (ha : s.timerArmed = true) (hq : s.queue = none) :
    FuzzySearch.fireTimer oracle s = { s with timerArmed := false } := by
  simp [FuzzySearch.fireTimer, ha, hq]

/-- `dispose()` keeps the queue and timeout fields and the call count; it
only settles promises and cancels the timer. -/
theorem dispose_fields (s : ClientState) :
    (FuzzySearch.dispose s).queue = s.queue ∧
    (FuzzySearch.dispose s).timeoutSet = s.timeoutSet ∧
    (FuzzySearch.dispose s).timerArmed = false ∧
    (FuzzySearch.dispose s).calls = s.calls := by
  unfold FuzzySearch.dispose
  exact ⟨rfl, rfl, rfl, rfl⟩

/-- One drained request only issues a call and settles one promise: the
queue and both timer fields are untouched and the promise count is kept. -/
theorem drainRequest_fields (oracle : Nat → String → ApiOutcome)
    (s : ClientState) (r : QueuedRequest) :
    (FuzzySearch.drainRequest oracle s r).queue = s.queue ∧
    (FuzzySearch.drainRequest oracle s r).timeoutSet = s.timeoutSet ∧
    (FuzzySearch.drainRequest oracle s r).timerArmed = s.timerArmed ∧
    (FuzzySearch.drainRequest oracle s r).futures.length =
      s.futures.length := by
  unfold FuzzySearch.drainRequest
  rcases hg : getAutoCompleteResults (oracle s.calls r.address) with res | e <;>
    simp [hg, settleFuture_length]

/-- The whole drain dispatch only issues calls and settles promises. -/
theorem foldl_drainRequest_fields (oracle : Nat → String → ApiOutcome)
    (q : List QueuedRequest) (s : ClientState) :
    (q.foldl (FuzzySearch.drainRequest oracle) s).queue = s.queue ∧
    (q.foldl (FuzzySearch.drainRequest oracle) s).timeoutSet = s.timeoutSet ∧
    (q.foldl (FuzzySearch.drainRequest oracle) s).timerArmed = s.timerArmed ∧
    (q.foldl (FuzzySearch.drainRequest oracle) s).futures.length =
      s.futures.length := by
  induction q generalizing s with
  | nil => exact ⟨rfl, rfl, rfl, rfl⟩
  | cons r rs ih =>
    have h1 := drainRequest_fields oracle s r
    have h2 := ih (FuzzySearch.drainRequest oracle s r)
    exact ⟨h2.1.trans h1.1, h2.2.1.trans h1.2.1, h2.2.2.1.trans h1.2.2.1,
      h2.2.2.2.trans h1.2.2.2⟩

/-- Every event step preserves `QueueTimeoutInv`. -/
theorem step_preserves_queueTimeoutInv (oracle : Nat → String → ApiOutcome)
    (s : ClientState) (e : FuzzySearch.Event) (h : QueueTimeoutInv s) :
    QueueTimeoutInv (FuzzySearch.step oracle s e) := by
  cases e with
  | submit a =>
    show QueueTimeoutInv (FuzzySearch.autoComplete oracle a s)
    cases hq : s.queue with
    | none =>
      rw [autoComplete_queue_none oracle a s hq]
      rcases runAutoComplete_cases oracle a s with ⟨res, hr⟩ | hr | ⟨e, _, hr⟩
      · rw [hr]
        intro hIs
        exact absurd hIs (by simp [hq])
      · rw [hr, handleDelay_queue_none _ _ (by simp [hq])]
        intro _
        rfl
      · rw [hr]
        intro hIs
        exact absurd hIs (by simp [hq])
    | some q =>
      rw [autoComplete_queue_some oracle a s q hq]
      intro _
      exact h (by simp [hq])
  | fire =>
    show QueueTimeoutInv (FuzzySearch.fireTimer oracle s)
    cases ha : s.timerArmed with
    | false =>
      rw [fireTimer_not_armed oracle s ha]
      exact h
    | true =>
      cases hq : s.queue with
      | none =>
        rw [fireTimer_armed_none oracle s ha hq]
        intro hIs
        exact absurd hIs (by simp [hq])
      | some q =>
        rw [fireTimer_armed_some oracle s q ha hq]
        intro hIs
        exact absurd hIs (by simp)
  | dispose =>
    show QueueTimeoutInv (FuzzySearch.dispose s)
    intro hIs
    rw [(dispose_fields s).2.1]
    exact h (by rw [← (dispose_fields s).1]; exact hIs)

/-- `QueueTimeoutInv` holds after any run of events from an invariant
state. -/
theorem runFrom_preserves_queueTimeoutInv (oracle : Nat → String → ApiOutcome)
    (events : List FuzzySearch.Event) :
    ∀ s, QueueTimeoutInv s →
      QueueTimeoutInv (FuzzySearch.runFrom oracle s events) := by
  induction events with
  | nil => exact fun s h => h
  | cons e es ih =>
    exact fun s h => ih _ (step_preserves_queueTimeoutInv oracle s e h)

/-- C2 fails on the code: after a drain the queue field is unset while the
timeout field still holds the fired (stale) handle — the two fields are not
cleared together when returning to Idle. -/
theorem queue_timeout_desync_counterexample :
    (FuzzySearch.run oracle429 [.submit "a", .fire]).queue = none ∧
    (FuzzySearch.run oracle429 [.submit "a", .fire]).timeoutSet = true := by
  decide

/-- C2 (amended): both fields start unset and are set together when entering
Draining, and in every reachable state a set queue implies a set timeout
field; but the drain clears only the queue, leaving the timeout field set
with the fired handle. -/
theorem queue_timeout_half_sync :
    initState.queue = none ∧ initState.timeoutSet = false ∧
    (∀ (oracle : Nat → String → ApiOutcome) events,
      (FuzzySearch.run oracle events).queue.isSome = true →
      (FuzzySearch.run oracle events).timeoutSet = true) ∧
    (∀ (oracle : Nat → String → ApiOutcome) s a, s.queue = none →
      (FuzzySearch.autoComplete oracle a s).queue.isSome = true →
      (FuzzySearch.autoComplete oracle a s).timeoutSet = true ∧
      (FuzzySearch.autoComplete oracle a s).timerArmed = true) ∧
    (∀ (oracle : Nat → String → ApiOutcome) s q, s.timerArmed = true →
      s.queue = some q →
      (FuzzySearch.fireTimer oracle s).queue = none ∧
      (FuzzySearch.fireTimer oracle s).timeoutSet = s.timeoutSet) := by
  refine ⟨rfl, rfl, ?_, ?_, ?_⟩
  · intro oracle events
    exact runFrom_preserves_queueTimeoutInv oracle events initState
      (fun hIs => absurd hIs (by simp [initState]))
  · intro oracle s a hq
    rw [autoComplete_queue_none oracle a s hq]
    rcases runAutoComplete_cases oracle a s with ⟨res, hr⟩ | hr | ⟨e, _, hr⟩
    · rw [hr]
      intro hIs
      exact absurd hIs (by simp [hq])
    · rw [hr, handleDelay_queue_none _ _ (by simp [hq])]
      exact fun _ => ⟨rfl, rfl⟩
    · rw [hr]
      intro hIs
      exact absurd hIs (by simp [hq])
  · intro oracle s q ha hq
    rw [fireTimer_armed_some oracle s q ha hq]
    exact ⟨rfl, (foldl_drainRequest_fields oracle q _).2.1⟩

/-- Witness for C2 (amended) at a concrete reachable state: after one
rate-limited submission the queue is set and so is the timeout field. -/
theorem queue_timeout_half_sync_witness :
    (FuzzySearch.run oracle429 [.submit "a"]).queue.isSome = true ∧
    (FuzzySearch.run oracle429 [.submit "a"]).timeoutSet = true :=
  ⟨by decide,
   queue_timeout_half_sync.2.2.1 oracle429 [.submit "a"] (by decide)⟩

/-- C3 evidence at the failing input: `dispose()` while Draining rejects the
queued promise and cancels the timer, but leaves the `#queue` (and
`#timeout`) fields set — the client does not return to Idle; while Idle it
is a no-op, and repeating it changes nothing further. -/
theorem dispose_leaves_queue_set :
    (FuzzySearch.run oracle429 [.submit "a", .dispose] =
      { queue := some [{ address := "a", futureId := 0 }]
        timeoutSet := true, timerArmed := false
        futures := [.rejected .disposed], calls := 1 }) ∧
    FuzzySearch.dispose initState = initState ∧
    FuzzySearch.run oracle429 [.submit "a", .dispose, .dispose] =
      FuzzySearch.run oracle429 [.submit "a", .dispose] := by
  refine ⟨by decide, by decide, by decide⟩

/-- Settling a promise with a rejection (or leaving it alone) never turns
any entry into a resolved one that was not already resolved. -/
theorem settleFuture_rejected_pullback (fs : List FutureState) (id : Nat)
    (e : FuzzyError) (fid : Nat) (r : List AutoCompleteResult)
    (h : (settleFuture fs id (.rejected e))[fid]? = some (.resolved r)) :
    fs[fid]? = some (.resolved r) := by
  unfold settleFuture at h
  split at h
  · rw [List.getElem?_set] at h
    split at h
    · split at h
      · exact nomatch h
      · exact nomatch h
    · exact h
  · exact h

/-- The rejection fold run by `dispose()` keeps the promise count. -/
theorem disposeFold_length (q : List QueuedRequest) (fs : List FutureState) :
    (q.foldl (fun fs req =>
      settleFuture fs req.futureId (.rejected .disposed)) fs).length =
      fs.length := by
  induction q generalizing fs with
  | nil => rfl
  | cons r rs ih => exact (ih _).trans (settleFuture_length fs r.futureId _)

/-- The rejection fold run by `dispose()` never resolves a promise. -/
theorem disposeFold_resolved_pullback (q : List QueuedRequest)
    (fs : List FutureState) (fid : Nat) (r : List AutoCompleteResult)
    (h : (q.foldl (fun fs req =>
      settleFuture fs req.futureId (.rejected .disposed)) fs)[fid]? =
        some (.resolved r)) :
    fs[fid]? = some (.resolved r) := by
  induction q generalizing fs with
  | nil => exact h
  | cons req rs ih =>
    exact settleFuture_rejected_pullback fs req.futureId _ fid r (ih _ h)

/-- `dispose()` while a queue exists rejects every queued promise and
cancels the timer, touching no other field. -/
theorem dispose_queue_some (s : ClientState) (q : List QueuedRequest)
    (hq : s.queue = some q) :
    FuzzySearch.dispose s =
      { s with timerArmed := false
               futures := q.foldl (fun fs req =>
                 settleFuture fs req.futureId (.rejected .disposed))
                 s.futures } := by
  unfold FuzzySearch.dispose
  rw [hq]

/-- Any single event keeps a stuck client stuck: the queue stays set, no
timer is armed, no underlying call is issued, no promise becomes resolved,
and (except for dispose) pending promises stay pending. -/
theorem step_stuck (oracle : Nat → String → ApiOutcome) (s : ClientState)
    (e : FuzzySearch.Event) (h : Stuck s) :
    Stuck (FuzzySearch.step oracle s e) ∧
    (FuzzySearch.step oracle s e).calls = s.calls ∧
    s.futures.length ≤ (FuzzySearch.step oracle s e).futures.length ∧
    (∀ (fid : Nat) (r : List AutoCompleteResult),
      (FuzzySearch.step oracle s e).futures[fid]? =
        some (FutureState.resolved r) →
      s.futures[fid]? = some (FutureState.resolved r)) ∧
    (e ≠ .dispose → ∀ (fid : Nat),
      (s.futures[fid]? = some FutureState.pending ∨ s.futures[fid]? = none) →
      ((FuzzySearch.step oracle s e).futures[fid]? =
          some FutureState.pending ∨
       (FuzzySearch.step oracle s e).futures[fid]? = none)) := by
  obtain ⟨hqs, hta⟩ := h
  obtain ⟨q, hq⟩ := Option.isSome_iff_exists.mp hqs
  cases e with
  | submit a =>
    have hstep : FuzzySearch.step oracle s (.submit a) =
        { s with futures := s.futures ++ [.pending]
                 queue := some (q ++
                   [{ address := a, futureId := s.futures.length }]) } :=
      autoComplete_queue_some oracle a s q hq
    rw [hstep]
    refine ⟨⟨rfl, hta⟩, rfl, by simp, ?_, ?_⟩
    · intro fid r hr
      by_cases hlt : fid < s.futures.length
      · rwa [List.getElem?_append_left hlt] at hr
      · exfalso
        rw [List.getElem?_append_right (Nat.le_of_not_lt hlt)] at hr
        rcases h2 : fid - s.futures.length with _ | k <;> rw [h2] at hr <;>
          simp at hr
    · intro _ fid hp
      by_cases hlt : fid < s.futures.length
      · rw [List.getElem?_append_left hlt]
        exact hp
      · rw [List.getElem?_append_right (Nat.le_of_not_lt hlt)]
        rcases h2 : fid - s.futures.length with _ | k
        · left
          rfl
        · right
          rfl
  | fire =>
    have hstep : FuzzySearch.step oracle s .fire = s :=
      fireTimer_not_armed oracle s hta
    rw [hstep]
    exact ⟨⟨hqs, hta⟩, rfl, Nat.le_refl _, fun _ _ hr => hr, fun _ _ hp => hp⟩
  | dispose =>
    have hstep : FuzzySearch.step oracle s .dispose =
        { s with timerArmed := false
                 futures := q.foldl (fun fs req =>
                   settleFuture fs req.futureId (.rejected .disposed))
                   s.futures } :=
      dispose_queue_some s q hq
    rw [hstep]
    refine ⟨⟨by simp [hq], rfl⟩, rfl,
      Nat.le_of_eq (disposeFold_length q s.futures).symm, ?_, ?_⟩
    · intro fid r hr
      exact disposeFold_resolved_pullback q s.futures fid r hr
    · intro hne
      exact absurd rfl hne

/-- Running any sequence of events from a stuck client keeps it stuck, with
the same guarantees accumulated along the run. -/
theorem runFrom_stuck (oracle : Nat → String → ApiOutcome)
    (events : List FuzzySearch.Event) :
    ∀ s, Stuck s →
      Stuck (FuzzySearch.runFrom oracle s events) ∧
      (FuzzySearch.runFrom oracle s events).calls = s.calls ∧
      s.futures.length ≤
        (FuzzySearch.runFrom oracle s events).futures.length ∧
      (∀ (fid : Nat) (r : List AutoCompleteResult),
        (FuzzySearch.runFrom oracle s events).futures[fid]? =
          some (FutureState.resolved r) →
        s.futures[fid]? = some (FutureState.resolved r)) ∧
      (FuzzySearch.Event.dispose ∉ events → ∀ (fid : Nat),
        (s.futures[fid]? = some FutureState.pending ∨
          s.futures[fid]? = none) →
        ((FuzzySearch.runFrom oracle s events).futures[fid]? =
            some FutureState.pending ∨
         (FuzzySearch.runFrom oracle s events).futures[fid]? = none)) := by
  induction events with
  | nil =>
    exact fun s h =>
      ⟨h, rfl, Nat.le_refl _, fun _ _ hr => hr, fun _ _ hp => hp⟩
  | cons e es ih =>
    intro s h
    have hstep := step_stuck oracle s e h
    have hrest := ih (FuzzySearch.step oracle s e) hstep.1
    refine ⟨hrest.1, hrest.2.1.trans hstep.2.1,
      Nat.le_trans hstep.2.2.1 hrest.2.2.1,
      fun fid r hr => hstep.2.2.2.1 fid r (hrest.2.2.2.1 fid r hr), ?_⟩
    intro hnd fid hp
    refine hrest.2.2.2.2 (fun hmem => hnd (List.mem_cons_of_mem _ hmem)) fid
      (hstep.2.2.2.2 ?_ fid hp)
    intro he
    exact hnd (by rw [← he]; exact List.mem_cons_self e es)

/-- C10 fails in one respect: the promise of a post-dispose submission is
not "never rejected" — a second `dispose()` call rejects it (it is pending
until then). -/
theorem stale_submission_rejected_by_later_dispose :
    (FuzzySearch.run oracle429
      [.submit "a", .dispose, .submit "b"]).futures[1]? =
      some FutureState.pending ∧
    (FuzzySearch.run oracle429
      [.submit "a", .dispose, .submit "b", .dispose]).futures[1]? =
      some (FutureState.rejected FuzzyError.disposed) := ⟨by decide, by decide⟩

/-- C10 (amended): once `dispose()` runs while Draining the client is stuck
(queue set, no armed timer) and stays stuck under every later event
sequence: no underlying call is ever issued again, every later submission
appends to the stale queue and returns a fresh pending promise, no promise
is ever resolved, and absent further dispose calls (the one remaining
settlement path) a pending promise stays pending forever. -/
theorem disposed_client_stuck (oracle : Nat → String → ApiOutcome)
    (s : ClientState) (h : Stuck s) (events : List FuzzySearch.Event) :
    Stuck (FuzzySearch.runFrom oracle s events) ∧
    (FuzzySearch.runFrom oracle s events).calls = s.calls ∧
    (∀ (q : List QueuedRequest) (a : String), s.queue = some q →
      FuzzySearch.step oracle s (.submit a) =
        { s with futures := s.futures ++ [.pending]
                 queue := some (q ++
                   [{ address := a, futureId := s.futures.length }]) }) ∧
    (∀ (fid : Nat) (r : List AutoCompleteResult),
      (FuzzySearch.runFrom oracle s events).futures[fid]? =
        some (FutureState.resolved r) →
      s.futures[fid]? = some (FutureState.resolved r)) ∧
    (FuzzySearch.Event.dispose ∉ events → ∀ (fid : Nat),
      s.futures[fid]? = some FutureState.pending →
      (FuzzySearch.runFrom oracle s events).futures[fid]? =
        some FutureState.pending) := by
  have hr := runFrom_stuck oracle events s h
  refine ⟨hr.1, hr.2.1, ?_, hr.2.2.2.1, ?_⟩
  · intro q a hq
    exact autoComplete_queue_some oracle a s q hq
  · intro hnd fid hp
    rcases hr.2.2.2.2 hnd fid (.inl hp) with h1 | h1
    · exact h1
    · exfalso
      have hlt : fid < s.futures.length := by
        by_contra hge
        rw [List.getElem?_eq_none (Nat.le_of_not_lt hge)] at hp
        exact nomatch hp
      rw [List.getElem?_eq_none_iff] at h1
      have := Nat.lt_of_lt_of_le hlt hr.2.2.1
      omega

/-- Witness for C10 (amended): the concrete post-dispose state is stuck and
stays stuck with no further calls across a later submission and timer
firing. -/
theorem disposed_client_stuck_witness :
    Stuck (FuzzySearch.run oracle429 [.submit "a", .dispose]) ∧
    Stuck (FuzzySearch.runFrom oracle429
      (FuzzySearch.run oracle429 [.submit "a", .dispose])
      [.submit "b", .fire]) ∧
    (FuzzySearch.runFrom oracle429
      (FuzzySearch.run oracle429 [.submit "a", .dispose])
      [.submit "b", .fire]).calls =
      (FuzzySearch.run oracle429 [.submit "a", .dispose]).calls :=
  have hs : Stuck (FuzzySearch.run oracle429 [.submit "a", .dispose]) :=
    ⟨by decide, by decide⟩
  ⟨hs, (disposed_client_stuck oracle429 _ hs [.submit "b", .fire]).1,
   (disposed_client_stuck oracle429 _ hs [.submit "b", .fire]).2.1⟩
